import Mathlib

/-!
Verification of the proxy-rotation / fetch layer of the rating addon
(`src/network.ts`).  The module-level mutable variables `proxyList`,
`currentProxyIndex`, `lastProxyFetchTime`, `isFetchingProxies`,
`puppeteerQueue` and `activePuppeteerRequests` are embedded as explicit
state records, and each `async` function of the source becomes a step
function (or, for the interceptor recursion, a fuel-indexed function)
over those records.  Network requests are resolved against an explicit
oracle of outcomes so that retry/rotation behaviour is a pure function
of the oracle.
-/

namespace RatingAddon

/-- Pool state: the module variables `proxyList`, `currentProxyIndex` and
`lastProxyFetchTime` of `network.ts`.  `currentProxyIndex = none` models the
JavaScript `NaN` produced by `x % 0` when the pool is empty. -/
structure PoolState where
  proxyList : List String
  currentProxyIndex : Option Nat
  lastProxyFetchTime : Nat
deriving DecidableEq

/-- The module's initial state: `proxyList = []`, `currentProxyIndex = 0`,
`lastProxyFetchTime = 0`. -/
def initialPoolState : PoolState :=
  { proxyList := [], currentProxyIndex := some 0, lastProxyFetchTime := 0 }

/-- `proxyFetchInterval = 60 * 60 * 1000` (one hour in milliseconds). -/
def proxyFetchInterval : Nat := 60 * 60 * 1000

/-- JavaScript `(i + 1) % len` where `len` may be `0`: `x % 0` is `NaN`
(modelled as `none`), and `NaN + 1` stays `NaN`. -/
def jsAdvance (len : Nat) (idx : Option Nat) : Option Nat :=
  match idx with
  | none => none
  | some i => if len = 0 then none else some ((i + 1) % len)

/-- The index update performed first by `rotateProxy`:
`currentProxyIndex = (currentProxyIndex + 1) % proxyList.length`. -/
def rotateIndex (s : PoolState) : PoolState :=
  { s with currentProxyIndex := jsAdvance s.proxyList.length s.currentProxyIndex }

/-- JavaScript `String.prototype.split` with a single-character separator,
over the character list: `"".split(sep)` is `[""]`, and `n` separator
occurrences produce `n + 1` (possibly empty) fields. -/
def splitChars (sep : Char) : List Char → List (List Char)
  | [] => [[]]
  | c :: rest =>
    if c = sep then [] :: splitChars sep rest
    else
      match splitChars sep rest with
      | [] => [[c]]
      | w :: ws => (c :: w) :: ws

/-- JavaScript `String.prototype.trim`: strip leading and trailing
whitespace. -/
def trimChars (l : List Char) : List Char :=
  ((l.dropWhile Char.isWhitespace).reverse.dropWhile Char.isWhitespace).reverse

/-- One line of the fetched proxy list, normalized as in `fetchProxyList`:
`proxy.trim().split(':').slice(0, 2).join(':')`. -/
def normalizeProxyLine (line : String) : String :=
  String.mk (List.intercalate [':'] ((splitChars ':' (trimChars line.toList)).take 2))

/-- `response.data.split('\n').map(normalize).filter(Boolean)`: split the body
on newlines, normalize each line, drop lines that normalize to the empty
string (the only falsy string). -/
def parseProxyData (data : String) : List String :=
  (((splitChars '\n' data.toList).map String.mk).map normalizeProxyLine).filter
    (fun p => p ≠ "")

/-- An abstract pool operation: the successful tail of `fetchProxyList`
(lines 56-58), a failed `fetchProxyList` (its `catch` block leaves all pool
variables untouched), or the index advance of `rotateProxy`. -/
inductive PoolOp where
  | refreshOk (data : String) (now : Nat)
  | refreshFail
  | rotate
deriving DecidableEq

/-- Apply one pool operation to the pool state. -/
def applyPoolOp (s : PoolState) : PoolOp → PoolState
  | PoolOp.refreshOk data now =>
      { proxyList := parseProxyData data
        currentProxyIndex := some 0
        lastProxyFetchTime := now }
  | PoolOp.refreshFail => s
  | PoolOp.rotate => rotateIndex s

/-- Apply a sequence of pool operations, oldest first. -/
def applyPoolOps (s : PoolState) (ops : List PoolOp) : PoolState :=
  ops.foldl applyPoolOp s

/-- The guard of `refreshProxyListIfNeeded`:
`Date.now() - lastProxyFetchTime > proxyFetchInterval || proxyList.length === 0`. -/
def shouldRefresh (now : Nat) (s : PoolState) : Bool :=
  decide (proxyFetchInterval < now - s.lastProxyFetchTime)
    || decide (s.proxyList.length = 0)

/-- The transient test of the response interceptor (line 23):
`['ECONNABORTED', 'ECONNRESET', 'ETIMEDOUT', 'ERR_BAD_REQUEST'].includes(error.code)
|| error.code == undefined`. -/
def isTransientError (code : Option String) : Bool :=
  code == some "ECONNABORTED" || code == some "ECONNRESET"
    || code == some "ETIMEDOUT" || code == some "ERR_BAD_REQUEST"
    || code == none

/-- Outcome the network oracle assigns to one HTTP request: it either
succeeds, or rejects with an axios error code (`none` = no `code` field). -/
inductive ReqOutcome where
  | ok
  | fail (code : Option String)
deriving DecidableEq

/-- Result a request ultimately resolves with after interception. -/
inductive ReqResult where
  | ok
  | err (code : Option String)
deriving DecidableEq

/-- The result an uninterrupted request would give an outcome. -/
def resultOf : ReqOutcome → ReqResult
  | ReqOutcome.ok => ReqResult.ok
  | ReqOutcome.fail c => ReqResult.err c

/-- What `rotateProxy` hands back: an axios instance (with or without the
rotation interceptor installed), or the rejection it propagated. -/
inductive RotateResult where
  | inst (intercepted : Bool)
  | failed (code : Option String)
deriving DecidableEq

mutual

/-- One HTTP request issued through an axios instance, with the response
interceptor of `setupAxiosInterceptors` attached iff `intercepted = true`.
Each attempted request consumes the head of the oracle.  On a failure that
the interceptor classifies as transient, the interceptor calls `rotateProxy`
and replays `error.config` through the returned instance; on any other
failure (or on an instance without the interceptor) the rejection is
propagated.  Returns the final result, the final pool state, the number of
index rotations performed, and the unconsumed oracle; `none` when the fuel
or the oracle runs out. -/
def runRequest : Nat → PoolState → Bool → List ReqOutcome →
    Option (ReqResult × PoolState × Nat × List ReqOutcome)
  | 0, _, _, _ => none
  | _ + 1, _, _, [] => none
  | fuel + 1, s, intercepted, o :: rest =>
    match o with
    | ReqOutcome.ok => some (ReqResult.ok, s, 0, rest)
    | ReqOutcome.fail c =>
      if intercepted && isTransientError c then
        match rotateProxyM fuel s rest with
        | none => none
        | some (RotateResult.failed c', s', rots, rest') =>
            some (ReqResult.err c', s', rots, rest')
        | some (RotateResult.inst intercepted', s', rots, rest') =>
          match runRequest fuel s' intercepted' rest' with
          | none => none
          | some (r, s'', rots2, rest'') => some (r, s'', rots + rots2, rest'')
      else
        some (ReqResult.err c, s, 0, rest)

/-- `rotateProxy`: advance the index by one modulo `proxyList.length`.  If
the new index is `0`, return a fresh direct instance (no interceptor,
`RotateResult.inst false`).  Otherwise `setupAxiosInstanceWithProxy` builds a proxied
instance, installs the interceptor on it, and issues the `api.ipify.org`
validation request through that instance before handing it back
(`RotateResult.inst true`); a rejection of the validation propagates
(`RotateResult.failed`).  The returned `Nat` counts all index rotations performed,
including any triggered recursively by the interceptor during validation. -/
def rotateProxyM : Nat → PoolState → List ReqOutcome →
    Option (RotateResult × PoolState × Nat × List ReqOutcome)
  | 0, _, _ => none
  | fuel + 1, s, oracle =>
    let s' := rotateIndex s
    if s'.currentProxyIndex = some 0 then
      some (RotateResult.inst false, s', 1, oracle)
    else
      match runRequest fuel s' true oracle with
      | none => none
      | some (ReqResult.ok, s'', rots, rest) =>
          some (RotateResult.inst true, s'', 1 + rots, rest)
      | some (ReqResult.err c, s'', rots, rest) =>
          some (RotateResult.failed c, s'', 1 + rots, rest)

end

/-- The proxy pool of the rotation scenario in the spec:
three proxies, starting at index 0. -/
def scenarioPool : PoolState :=
  { proxyList := ["1.1.1.1:8080", "2.2.2.2:8080", "3.3.3.3:8080"]
    currentProxyIndex := some 0
    lastProxyFetchTime := 0 }

/-- Phase of one caller of `fetchProxyList`.  `start`: the call has not run
yet.  `fetching`: this caller passed the `isFetchingProxies` check, set the
flag and is awaiting the proxy-source request.  `waiting`: this caller saw
the flag set and is polling on the 100 ms interval.  `done obs`: the call
resolved while the module's `proxyList` was `obs`. -/
inductive CallerPhase where
  | start
  | fetching
  | waiting
  | done (observed : List String)
deriving DecidableEq

/-- State of the single-flight refresh machine: the pool variables, the
`isFetchingProxies` flag, which caller (if any) has the proxy-source request
in flight, the phase of each caller of `fetchProxyList`, and a counter of
outbound proxy-source fetches issued so far. -/
structure RefreshSystem where
  pool : PoolState
  isFetchingProxies : Bool
  inFlight : Option Nat
  callers : List CallerPhase
  fetchCount : Nat
deriving DecidableEq

/-- One scheduler step of caller `i`.  A caller at `start` runs the
synchronous prologue of `fetchProxyList` (lines 37-51): it checks
`isFetchingProxies`, and either registers as a polling waiter or sets the
flag and issues the outbound fetch; there is no suspension point between the
check and the flag assignment.  A caller at `waiting` runs one tick of its
polling interval: it resolves iff the flag is now clear.  A caller awaiting
the network, or already resolved, does nothing. -/
def callerStep (sys : RefreshSystem) (i : Nat) : RefreshSystem :=
  match sys.callers[i]? with
  | some CallerPhase.start =>
    if sys.isFetchingProxies then
      { sys with callers := sys.callers.set i CallerPhase.waiting }
    else
      { sys with
          isFetchingProxies := true
          inFlight := some i
          callers := sys.callers.set i CallerPhase.fetching
          fetchCount := sys.fetchCount + 1 }
  | some CallerPhase.waiting =>
    if sys.isFetchingProxies then sys
    else { sys with
             callers := sys.callers.set i (CallerPhase.done sys.pool.proxyList) }
  | _ => sys

/-- The in-flight proxy-source request resolves.  With `payload = some data`
the `try` block runs (parse, reset index, record timestamp); with
`payload = none` the `catch` block runs (state untouched, nothing raised).
Either way the `finally` block clears `isFetchingProxies`, and the fetching
caller's `fetchProxyList` call resolves.  With no request in flight the
event is a no-op. -/
def deliverStep (sys : RefreshSystem) (payload : Option String) (now : Nat) :
    RefreshSystem :=
  match sys.inFlight with
  | none => sys
  | some i =>
    let pool' := match payload with
      | some data => applyPoolOp sys.pool (PoolOp.refreshOk data now)
      | none => applyPoolOp sys.pool PoolOp.refreshFail
    { pool := pool'
      isFetchingProxies := false
      inFlight := none
      callers := sys.callers.set i (CallerPhase.done pool'.proxyList)
      fetchCount := sys.fetchCount }

/-- A schedulable event of the refresh machine. -/
inductive RefreshEvent where
  | step (i : Nat)
  | deliver (payload : Option String) (now : Nat)
deriving DecidableEq

/-- Apply one event. -/
def refreshStep (sys : RefreshSystem) : RefreshEvent → RefreshSystem
  | RefreshEvent.step i => callerStep sys i
  | RefreshEvent.deliver payload now => deliverStep sys payload now

/-- Run a schedule of events, oldest first. -/
def refreshRun (sys : RefreshSystem) (evs : List RefreshEvent) : RefreshSystem :=
  evs.foldl refreshStep sys

/-- Initial system for `k` concurrent callers of `fetchProxyList` over pool
state `p`: no fetch in flight, every caller yet to run. -/
def initRefresh (k : Nat) (p : PoolState) : RefreshSystem :=
  { pool := p
    isFetchingProxies := false
    inFlight := none
    callers := List.replicate k CallerPhase.start
    fetchCount := 0 }

/-- `MAX_PUPPETEER_REQUESTS = 2`. -/
def maxPuppeteerRequests : Int := 2

/-- State of the Puppeteer render queue.  `puppeteerQueue` and
`activePuppeteerRequests` embed the module variables of the same names;
tasks are identified by the order of their enqueueing (`nextId` ids have
been handed out).  `running`, `started` and `completed` are histories needed
to state the claims: ids currently executing, ids in start order, and ids
whose execution finished. -/
structure QueueState where
  puppeteerQueue : List Nat
  activePuppeteerRequests : Int
  running : List Nat
  started : List Nat
  completed : List Nat
  nextId : Nat
deriving DecidableEq

/-- `processPuppeteerQueue`: return unless a slot is free and the queue is
non-empty; otherwise `shift()` the head of the queue, increment the active
counter and start executing the task.  (The subsequent `await`, decrement
and recursive call belong to the completion event.) -/
def processQueue (st : QueueState) : QueueState :=
  if maxPuppeteerRequests ≤ st.activePuppeteerRequests then st
  else
    match st.puppeteerQueue with
    | [] => st
    | t :: rest =>
      { st with
          puppeteerQueue := rest
          activePuppeteerRequests := st.activePuppeteerRequests + 1
          running := st.running ++ [t]
          started := st.started ++ [t] }

/-- A schedulable event of the render queue: `queuePuppeteerRequest` is
called (enqueue), or an executing render task finishes (complete). -/
inductive QueueEvent where
  | enqueue
  | complete (id : Nat)
deriving DecidableEq

/-- Apply one event.  `enqueue` pushes a fresh task onto the tail of
`puppeteerQueue` and invokes `processPuppeteerQueue` (line 126).  `complete
id` is the resumption after `await puppeteerRequest()` in the processor
frame that started `id`: record completion, decrement the counter, and
recursively invoke `processPuppeteerQueue` (lines 141-143); the event is a
no-op unless `id` is actually executing. -/
def queueStep (st : QueueState) : QueueEvent → QueueState
  | QueueEvent.enqueue =>
    processQueue
      { st with
          puppeteerQueue := st.puppeteerQueue ++ [st.nextId]
          nextId := st.nextId + 1 }
  | QueueEvent.complete id =>
    if id ∈ st.running then
      processQueue
        { st with
            activePuppeteerRequests := st.activePuppeteerRequests - 1
            running := st.running.erase id
            completed := st.completed ++ [id] }
    else st

/-- Run a schedule of queue events, oldest first. -/
def queueRun (st : QueueState) (evs : List QueueEvent) : QueueState :=
  evs.foldl queueStep st

/-- The module's initial queue state: empty queue, counter 0. -/
def initQueue : QueueState :=
  { puppeteerQueue := []
    activePuppeteerRequests := 0
    running := []
    started := []
    completed := []
    nextId := 0 }

/-! ## Rotation index arithmetic -/

theorem rotateIndex_proxyList (s : PoolState) :
    (rotateIndex s).proxyList = s.proxyList := rfl

theorem rotateIndex_iterate (s : PoolState) (i : Nat)
    (hi : s.currentProxyIndex = some i) (hix : i < s.proxyList.length) :
    ∀ k : Nat, (rotateIndex^[k] s).proxyList = s.proxyList
      ∧ (rotateIndex^[k] s).currentProxyIndex
          = some ((i + k) % s.proxyList.length) := by
  intro k
  induction k with
  | zero =>
    refine ⟨rfl, ?_⟩
    simpa [Nat.mod_eq_of_lt hix] using hi
  | succ k ih =>
    obtain ⟨hlist, hidx⟩ := ih
    rw [Function.iterate_succ_apply']
    constructor
    · rw [rotateIndex_proxyList, hlist]
    · have hlen : s.proxyList.length ≠ 0 := by omega
      simp only [rotateIndex, jsAdvance, hlist, hidx, hlen, if_false]
      rw [Nat.mod_add_mod, ← Nat.add_assoc]

/-! ## Claim C1 — rotation cycle length -/

/-- C1 counterexample: on the spec's own scenario (three proxies, starting
direct at index 0) a single `rotateProxy` selects index 1, whose proxy is
`2.2.2.2:8080` — not the first proxy `1.1.1.1:8080` — and four rotations
leave the index at 1, not back at the direct state: the cycle has period
`N = 3`, not `N + 1 = 4`. -/
theorem rotation_cycle_counterexample :
    (rotateIndex scenarioPool).currentProxyIndex = some 1
    ∧ scenarioPool.proxyList[1]? = some "2.2.2.2:8080"
    ∧ scenarioPool.proxyList[0]? = some "1.1.1.1:8080"
    ∧ (rotateIndex^[4] scenarioPool).currentProxyIndex = some 1
    ∧ (rotateIndex^[4] scenarioPool).currentProxyIndex
        ≠ scenarioPool.currentProxyIndex := by
  refine ⟨by decide, by decide, by decide, ?_, ?_⟩ <;> decide

/-- C1 amended: rotation is cyclic with period `N` (not `N + 1`):
`rotateProxy` advances the index by one modulo `N = proxyList.length`, with
index 0 (not an extra slot) serving as the direct sentinel; from any valid
index, `N` rotations return to it. -/
theorem rotation_cycle_period_len (s : PoolState) (i : Nat)
    (hi : s.currentProxyIndex = some i) (hix : i < s.proxyList.length) :
    (rotateIndex^[s.proxyList.length] s).currentProxyIndex = some i := by
  rw [(rotateIndex_iterate s i hi hix s.proxyList.length).2,
    Nat.add_mod_right, Nat.mod_eq_of_lt hix]

/-- C1 witness: on the three-proxy scenario pool, three rotations (not
four) return to the direct state. -/
theorem rotation_cycle_period_len_witness :
    (rotateIndex^[3] scenarioPool).currentProxyIndex = some 0 := by
  have h := rotation_cycle_period_len scenarioPool 0 rfl (by decide)
  simpa using h

/-! ## Claim C6 — failure classification -/

/-- C6: the interceptor classifies a failure as transient exactly when its
code is `ECONNABORTED` (connection aborted / axios timeout), `ECONNRESET`
(connection reset), `ETIMEDOUT` (deadline exceeded), `ERR_BAD_REQUEST`
(malformed / unclassified response), or missing entirely; every other
failure is propagated to the caller unchanged, with no rotation and no
replay. -/
theorem transient_classification (c : Option String) (fuel : Nat)
    (s : PoolState) (rest : List ReqOutcome) :
    (isTransientError c = true ↔
      (c = some "ECONNABORTED" ∨ c = some "ECONNRESET"
        ∨ c = some "ETIMEDOUT" ∨ c = some "ERR_BAD_REQUEST" ∨ c = none))
    ∧ (isTransientError c = false →
        runRequest (fuel + 1) s true (ReqOutcome.fail c :: rest)
          = some (ReqResult.err c, s, 0, rest)) := by
  constructor
  · simp [isTransientError, or_assoc]
  · intro hc
    simp [runRequest, hc]

/-- C6 witness: `ERR_BAD_RESPONSE` (a non-retryable HTTP response error) is
terminal and propagates immediately with zero rotations. -/
theorem transient_classification_witness :
    isTransientError (some "ERR_BAD_RESPONSE") = false
    ∧ runRequest 1 scenarioPool true [ReqOutcome.fail (some "ERR_BAD_RESPONSE")]
        = some (ReqResult.err (some "ERR_BAD_RESPONSE"), scenarioPool, 0, []) :=
  ⟨by decide,
    (transient_classification (some "ERR_BAD_RESPONSE") 0 scenarioPool []).2
      (by decide)⟩

/-! ## Claim C2 — rotation-triggered replay -/

/-- C2 counterexample: a fetch over the scenario pool whose first attempt
times out and whose replay (through the proxy at index 1, validated
successfully) times out again performs a second rotation and a second
replay within the same call — the rotated instance carries the interceptor
itself, so the retry is not single-shot.  Oracle: original attempt fails,
validation of proxy 1 succeeds, replay fails, validation of proxy 2
succeeds, second replay succeeds; total rotations 2, not 1. -/
theorem transient_retry_counterexample :
    runRequest 10 scenarioPool true
      [ReqOutcome.fail (some "ETIMEDOUT"), ReqOutcome.ok,
       ReqOutcome.fail (some "ETIMEDOUT"), ReqOutcome.ok, ReqOutcome.ok]
    = some (ReqResult.ok,
        { proxyList := ["1.1.1.1:8080", "2.2.2.2:8080", "3.3.3.3:8080"]
          currentProxyIndex := some 2
          lastProxyFetchTime := 0 }, 2, [])
    ∧ (2 : Nat) ≠ 1 := by
  exact ⟨by decide, by decide⟩

/-- C2 amended: on a transient first failure the client rotates and replays
the identical request once through the new instance, and the single-shot
guarantee holds exactly when the rotation lands on the direct sentinel
(index 0), whose instance carries no interceptor: then exactly one rotation
and one replay occur and the replay's outcome — success or failure — is
returned as-is.  (When the rotation lands on a proxy, the replay travels
through an instance that itself rotates on transient failure, as the
counterexample shows.) -/
theorem transient_retry_single_shot_direct (fuel : Nat) (s : PoolState)
    (c : Option String) (o : ReqOutcome) (rest : List ReqOutcome)
    (hc : isTransientError c = true)
    (hrot : (rotateIndex s).currentProxyIndex = some 0) :
    runRequest (fuel + 2) s true (ReqOutcome.fail c :: o :: rest)
      = some (resultOf o, rotateIndex s, 1, rest) := by
  cases o <;> simp [runRequest, rotateProxyM, hc, hrot, resultOf]

/-- C2 witness: a single-proxy pool (every rotation lands direct); the
first attempt is reset, the replay is reset too, and that second failure
is returned as-is after exactly one rotation. -/
theorem transient_retry_single_shot_direct_witness :
    runRequest 2
      { proxyList := ["9.9.9.9:80"], currentProxyIndex := some 0,
        lastProxyFetchTime := 0 } true
      [ReqOutcome.fail (some "ECONNRESET"), ReqOutcome.fail (some "ECONNRESET")]
    = some (ReqResult.err (some "ECONNRESET"),
        rotateIndex
          { proxyList := ["9.9.9.9:80"], currentProxyIndex := some 0,
            lastProxyFetchTime := 0 }, 1, []) :=
  transient_retry_single_shot_direct 0
    { proxyList := ["9.9.9.9:80"], currentProxyIndex := some 0,
      lastProxyFetchTime := 0 }
    (some "ECONNRESET") (ReqOutcome.fail (some "ECONNRESET")) []
    (by decide) (by decide)

/-! ## Claim C7 — rotation validation -/

/-- C7 counterexample: over the scenario pool, rotation lands on proxy 1,
whose IP-echo validation fails transiently; instead of surfacing a rotation
failure with the index at the newly rotated position 1, the interceptor on
the freshly built instance rotates again automatically: the call succeeds
with `RotateResult.inst true`, two rotations are counted, and the final
index is 2. -/
theorem rotation_validation_counterexample :
    rotateProxyM 10 scenarioPool
      [ReqOutcome.fail (some "ECONNRESET"), ReqOutcome.ok, ReqOutcome.ok]
    = some (RotateResult.inst true,
        { proxyList := ["1.1.1.1:8080", "2.2.2.2:8080", "3.3.3.3:8080"]
          currentProxyIndex := some 2
          lastProxyFetchTime := 0 }, 2, [])
    ∧ (some 2 : Option Nat) ≠ some 1 ∧ (2 : Nat) ≠ 1 := by
  exact ⟨by decide, by decide, by decide⟩

/-- C7 amended: when rotation lands on a proxy (new index nonzero), the new
configuration is validated by a control request to the IP-echo endpoint
before being handed back; if that validation succeeds the instance is
returned after exactly the one rotation, and if it fails with a TERMINAL
error the failure is surfaced as a rotation failure, the pool's index still
reflects the newly rotated position, and no automatic re-rotation takes
place.  (A TRANSIENT validation failure instead triggers an automatic
further rotation, as the counterexample shows.) -/
theorem rotation_validation_terminal (fuel : Nat) (s : PoolState) (k : Nat)
    (c : Option String) (rest : List ReqOutcome)
    (hk : (rotateIndex s).currentProxyIndex = some k) (hk0 : k ≠ 0) :
    rotateProxyM (fuel + 2) s (ReqOutcome.ok :: rest)
      = some (RotateResult.inst true, rotateIndex s, 1, rest)
    ∧ (isTransientError c = false →
        rotateProxyM (fuel + 2) s (ReqOutcome.fail c :: rest)
          = some (RotateResult.failed c, rotateIndex s, 1, rest)) := by
  have hne : (rotateIndex s).currentProxyIndex ≠ some 0 := by
    rw [hk]; intro h; exact hk0 (Option.some.injEq _ _ ▸ h)
  constructor
  · simp [rotateProxyM, runRequest, hne]
  · intro hc
    simp [rotateProxyM, runRequest, hne, hc]

/-- C7 witness: on the scenario pool, a terminal validation failure
(`ERR_BAD_RESPONSE`) surfaces as a rotation failure after exactly one
rotation, with the index left at the new position 1. -/
theorem rotation_validation_terminal_witness :
    rotateProxyM 2 scenarioPool
      [ReqOutcome.fail (some "ERR_BAD_RESPONSE")]
    = some (RotateResult.failed (some "ERR_BAD_RESPONSE"),
        rotateIndex scenarioPool, 1, []) :=
  (rotation_validation_terminal 0 scenarioPool 1 (some "ERR_BAD_RESPONSE") []
    (by decide) (by decide)).2 (by decide)

/-! ## Single-flight refresh machinery (claim C3) -/

/-- Caller `i` has taken its first step: it is no longer at `start`. -/
def Stepped (sys : RefreshSystem) (i : Nat) : Prop :=
  ∀ q, sys.callers[i]? = some q → q ≠ CallerPhase.start

/-- Invariant during the concurrent-arrival prefix (caller steps only, no
network delivery yet): either nobody has issued the fetch and every caller
is still at `start`, or exactly one outbound fetch has been issued, exactly
one caller holds it, and every other caller is at `start` or polling. -/
def PreInv (p : PoolState) (k : Nat) (sys : RefreshSystem) : Prop :=
  sys.pool = p ∧ sys.callers.length = k ∧
  ((sys.isFetchingProxies = false ∧ sys.inFlight = none ∧ sys.fetchCount = 0
      ∧ ∀ (j : Nat) (q : CallerPhase), sys.callers[j]? = some q → q = CallerPhase.start)
   ∨ (sys.isFetchingProxies = true ∧ sys.fetchCount = 1
      ∧ ∃ j, sys.inFlight = some j
        ∧ sys.callers[j]? = some CallerPhase.fetching
        ∧ ∀ (m : Nat) (q : CallerPhase), m ≠ j → sys.callers[m]? = some q →
            (q = CallerPhase.start ∨ q = CallerPhase.waiting)))

/-- Invariant once every caller has stepped at least once: exactly one
outbound fetch was ever issued, nobody is at `start` any more, and either
the fetch is still in flight (holder `fetching`, everyone else polling) or
it has resolved and every caller is polling or has resolved observing the
current pool list. -/
def PostInv (sys : RefreshSystem) : Prop :=
  sys.fetchCount = 1 ∧
  (∀ (j : Nat) (q : CallerPhase), sys.callers[j]? = some q → q ≠ CallerPhase.start) ∧
  ((sys.isFetchingProxies = true
      ∧ ∃ j, sys.inFlight = some j
        ∧ sys.callers[j]? = some CallerPhase.fetching
        ∧ ∀ (m : Nat) (q : CallerPhase), m ≠ j → sys.callers[m]? = some q → q = CallerPhase.waiting)
   ∨ (sys.isFetchingProxies = false ∧ sys.inFlight = none
      ∧ ∀ (j : Nat) (q : CallerPhase), sys.callers[j]? = some q →
          (q = CallerPhase.waiting ∨ q = CallerPhase.done sys.pool.proxyList)))

theorem set_lookup_ne (l : List CallerPhase) (i m : Nat) (v : CallerPhase)
    (h : m ≠ i) : (l.set i v)[m]? = l[m]? :=
  List.getElem?_set_ne (fun he => h he.symm)

theorem set_lookup_self (l : List CallerPhase) (i : Nat) (v : CallerPhase)
    (h : i < l.length) : (l.set i v)[i]? = some v :=
  List.getElem?_set_eq_of_lt v h

theorem set_lookup_self_inv (l : List CallerPhase) (i : Nat)
    (v q : CallerPhase) (h : (l.set i v)[i]? = some q) : q = v := by
  rw [List.getElem?_set_self'] at h
  cases hl : l[i]? with
  | none => rw [hl] at h; exact absurd h (by simp)
  | some w => rw [hl] at h; simpa using h.symm

theorem preInv_step (p : PoolState) (k : Nat) (sys : RefreshSystem) (i : Nat)
    (h : PreInv p k sys) : PreInv p k (callerStep sys i) := by
  obtain ⟨hpool, hlen, hcase⟩ := h
  cases hc : sys.callers[i]? with
  | none => simpa [callerStep, hc] using ⟨hpool, hlen, hcase⟩
  | some q =>
    cases q with
    | start =>
      rcases hcase with ⟨hflag, hifl, hfc, hall⟩ | ⟨hflag, hfc, j, hj, hjc, hoth⟩
      · -- nobody fetching yet: caller i issues the fetch
        have hi : i < sys.callers.length := (List.getElem?_eq_some.mp hc).1
        simp only [callerStep, hc, hflag, Bool.false_eq_true, if_false]
        refine ⟨hpool, by simpa using hlen, Or.inr ⟨rfl, by rw [hfc], i, rfl,
          set_lookup_self _ _ _ hi, ?_⟩⟩
        intro m q hm hq
        rw [set_lookup_ne _ _ _ _ hm] at hq
        exact Or.inl (hall m q hq)
      · -- a fetch is in flight: caller i registers as a waiter
        have hij : i ≠ j := by
          intro he
          rw [he, hjc] at hc
          exact absurd (Option.some.inj hc) (by simp)
        simp only [callerStep, hc, hflag, if_true]
        refine ⟨hpool, by simpa using hlen, Or.inr ⟨rfl, hfc, j, hj,
          by rw [set_lookup_ne _ _ _ _ (Ne.symm hij)]; exact hjc, ?_⟩⟩
        intro m q hm hq
        by_cases hmi : m = i
        · subst hmi
          exact Or.inr (set_lookup_self_inv _ _ _ _ hq)
        · rw [set_lookup_ne _ _ _ _ hmi] at hq
          exact hoth m q hm hq
    | fetching => simpa [callerStep, hc] using ⟨hpool, hlen, hcase⟩
    | waiting =>
      rcases hcase with ⟨hflag, hifl, hfc, hall⟩ | ⟨hflag, hfc, j, hj, hjc, hoth⟩
      · exact absurd (hall i CallerPhase.waiting hc) (by simp)
      · simp only [callerStep, hc, hflag, if_true]
        exact ⟨hpool, hlen, Or.inr ⟨hflag, hfc, j, hj, hjc, hoth⟩⟩
    | done o => simpa [callerStep, hc] using ⟨hpool, hlen, hcase⟩

theorem stepped_of_set (l : List CallerPhase) (i m : Nat) (v : CallerPhase)
    (hv : v ≠ CallerPhase.start)
    (hm : ∀ q, l[m]? = some q → q ≠ CallerPhase.start) :
    ∀ q, (l.set i v)[m]? = some q → q ≠ CallerPhase.start := by
  intro q hq
  by_cases him : m = i
  · subst him
    have hqv : q = v := set_lookup_self_inv l m v q hq
    rw [hqv]
    exact hv
  · rw [set_lookup_ne _ _ _ _ him] at hq
    exact hm q hq

theorem callerStep_stepped (sys : RefreshSystem) (i : Nat) :
    Stepped (callerStep sys i) i := by
  intro q hq
  cases hc : sys.callers[i]? with
  | none =>
    simp only [callerStep, hc] at hq
    exact Option.noConfusion hq
  | some q' =>
    cases q' with
    | start =>
      by_cases hf : sys.isFetchingProxies = true
      · simp only [callerStep, hc, hf, if_true] at hq
        rw [set_lookup_self_inv _ _ _ _ hq]
        simp
      · simp only [Bool.not_eq_true] at hf
        simp only [callerStep, hc, hf, Bool.false_eq_true, if_false] at hq
        rw [set_lookup_self_inv _ _ _ _ hq]
        simp
    | waiting =>
      by_cases hf : sys.isFetchingProxies = true
      · simp only [callerStep, hc, hf, if_true] at hq
        injection hq with hq'
        rw [← hq']
        simp
      · simp only [Bool.not_eq_true] at hf
        simp only [callerStep, hc, hf, Bool.false_eq_true, if_false] at hq
        rw [set_lookup_self_inv _ _ _ _ hq]
        simp
    | fetching =>
      simp only [callerStep, hc] at hq
      injection hq with hq'
      rw [← hq']
      simp
    | done o =>
      simp only [callerStep, hc] at hq
      injection hq with hq'
      rw [← hq']
      simp

theorem stepped_mono (sys : RefreshSystem) (i m : Nat)
    (h : Stepped sys m) : Stepped (callerStep sys i) m := by
  cases hc : sys.callers[i]? with
  | none =>
    intro q hq
    simp only [callerStep, hc] at hq
    exact h q hq
  | some q' =>
    cases q' with
    | start =>
      by_cases hf : sys.isFetchingProxies = true
      · intro q hq
        simp only [callerStep, hc, hf, if_true] at hq
        exact stepped_of_set _ _ _ _ (by simp) h q hq
      · simp only [Bool.not_eq_true] at hf
        intro q hq
        simp only [callerStep, hc, hf, Bool.false_eq_true, if_false] at hq
        exact stepped_of_set _ _ _ _ (by simp) h q hq
    | waiting =>
      by_cases hf : sys.isFetchingProxies = true
      · intro q hq
        simp only [callerStep, hc, hf, if_true] at hq
        exact h q hq
      · simp only [Bool.not_eq_true] at hf
        intro q hq
        simp only [callerStep, hc, hf, Bool.false_eq_true, if_false] at hq
        exact stepped_of_set _ _ _ _ (by simp) h q hq
    | fetching =>
      intro q hq
      simp only [callerStep, hc] at hq
      exact h q hq
    | done o =>
      intro q hq
      simp only [callerStep, hc] at hq
      exact h q hq

theorem preInv_run (p : PoolState) (k : Nat) (evs : List RefreshEvent)
    (sys : RefreshSystem)
    (hevs : ∀ e ∈ evs, ∃ i : Nat, e = RefreshEvent.step i)
    (hinv : PreInv p k sys) :
    PreInv p k (refreshRun sys evs)
    ∧ (∀ i : Nat, RefreshEvent.step i ∈ evs ∨ Stepped sys i →
        Stepped (refreshRun sys evs) i) := by
  induction evs generalizing sys with
  | nil =>
    exact ⟨hinv, fun i h =>
      h.resolve_left (fun h' => absurd h' (List.not_mem_nil _))⟩
  | cons e rest ih =>
    obtain ⟨i0, rfl⟩ := hevs e (List.mem_cons_self e rest)
    have hrun : refreshRun sys (RefreshEvent.step i0 :: rest)
        = refreshRun (callerStep sys i0) rest := rfl
    rw [hrun]
    have hevs' : ∀ e ∈ rest, ∃ i : Nat, e = RefreshEvent.step i :=
      fun e he => hevs e (List.mem_cons_of_mem _ he)
    obtain ⟨ha, hb⟩ := ih (callerStep sys i0) hevs'
      (preInv_step p k sys i0 hinv)
    refine ⟨ha, ?_⟩
    intro i hi
    rcases hi with hmem | hstep
    · rcases List.mem_cons.mp hmem with he | hmem'
      · have hii : i = i0 := by injection he
        subst hii
        exact hb i (Or.inr (callerStep_stepped sys i))
      · exact hb i (Or.inl hmem')
    · exact hb i (Or.inr (stepped_mono sys i0 i hstep))

theorem postInv_step (sys : RefreshSystem) (i : Nat) (h : PostInv sys) :
    PostInv (callerStep sys i) := by
  obtain ⟨hfc, hns, hcase⟩ := h
  cases hc : sys.callers[i]? with
  | none => simpa [callerStep, hc] using ⟨hfc, hns, hcase⟩
  | some q' =>
    cases q' with
    | start => exact absurd rfl (hns i CallerPhase.start hc)
    | fetching => simpa [callerStep, hc] using ⟨hfc, hns, hcase⟩
    | done o => simpa [callerStep, hc] using ⟨hfc, hns, hcase⟩
    | waiting =>
      by_cases hf : sys.isFetchingProxies = true
      · simp only [callerStep, hc, hf, if_true]
        exact ⟨hfc, hns, hcase⟩
      · simp only [Bool.not_eq_true] at hf
        rcases hcase with ⟨hft, _⟩ | ⟨_, hifl, hall⟩
        · rw [hf] at hft
          exact absurd hft (by simp)
        · simp only [callerStep, hc, hf, Bool.false_eq_true, if_false]
          refine ⟨hfc, ?_, Or.inr ⟨rfl, hifl, ?_⟩⟩
          · intro j q hq
            exact stepped_of_set _ _ _ _ (by simp)
              (fun q' hq' => hns j q' hq') q hq
          · intro j q hq
            by_cases hji : j = i
            · subst hji
              rw [set_lookup_self_inv _ _ _ _ hq]
              exact Or.inr rfl
            · rw [set_lookup_ne _ _ _ _ hji] at hq
              exact hall j q hq

theorem postInv_deliver (sys : RefreshSystem) (payload : Option String)
    (now : Nat) (h : PostInv sys) : PostInv (deliverStep sys payload now) := by
  obtain ⟨hfc, hns, hcase⟩ := h
  cases hifl : sys.inFlight with
  | none => simpa [deliverStep, hifl] using ⟨hfc, hns, hcase⟩
  | some j =>
    rcases hcase with ⟨hft, j', hj', hjc, hoth⟩ | ⟨_, hnone, _⟩
    · rw [hifl] at hj'
      have hjj : j = j' := Option.some.inj hj'
      subst hjj
      simp only [deliverStep, hifl]
      refine ⟨hfc, ?_, Or.inr ⟨rfl, rfl, ?_⟩⟩
      · intro m q hq
        exact stepped_of_set _ _ _ _ (by simp)
          (fun q' hq' => hns m q' hq') q hq
      · intro m q hq
        by_cases hmj : m = j
        · subst hmj
          rw [set_lookup_self_inv _ _ _ _ hq]
          exact Or.inr rfl
        · rw [set_lookup_ne _ _ _ _ hmj] at hq
          exact Or.inl (hoth m q hmj hq)
    · rw [hnone] at hifl
      exact absurd hifl (by simp)

theorem postInv_run (evs : List RefreshEvent) (sys : RefreshSystem)
    (h : PostInv sys) : PostInv (refreshRun sys evs) := by
  induction evs generalizing sys with
  | nil => exact h
  | cons e rest ih =>
    cases e with
    | step i => exact ih (callerStep sys i) (postInv_step sys i h)
    | deliver payload now =>
      exact ih (deliverStep sys payload now) (postInv_deliver sys payload now h)

theorem postInv_of_stepped (p : PoolState) (k : Nat) (sys : RefreshSystem)
    (hk : 0 < k) (hinv : PreInv p k sys)
    (hstep : ∀ i : Nat, i < k → Stepped sys i) : PostInv sys := by
  obtain ⟨hpool, hlen, hcase⟩ := hinv
  have hns : ∀ (j : Nat) (q : CallerPhase),
      sys.callers[j]? = some q → q ≠ CallerPhase.start := by
    intro j q hq
    have hj : j < sys.callers.length := (List.getElem?_eq_some.mp hq).1
    rw [hlen] at hj
    exact hstep j hj q hq
  rcases hcase with ⟨_, _, _, hall⟩ | ⟨hflag, hfc, j, hj, hjc, hoth⟩
  · have h0 : (0 : Nat) < sys.callers.length := by rw [hlen]; exact hk
    have hq0 : sys.callers[0]? = some (sys.callers[0]) :=
      List.getElem?_eq_getElem h0
    exact absurd (hall 0 _ hq0) (hns 0 _ hq0)
  · exact ⟨hfc, hns, Or.inl ⟨hflag, j, hj, hjc, fun m q hm hq =>
      (hoth m q hm hq).resolve_left (fun hs => (hns m q hq) hs)⟩⟩

theorem mem_lookup {α : Type} (l : List α) (a : α) (h : a ∈ l) :
    ∃ i : Nat, l[i]? = some a := by
  obtain ⟨i, hi, rfl⟩ := List.mem_iff_getElem.1 h
  exact ⟨i, by rw [List.getElem?_eq_some]; exact ⟨hi, rfl⟩⟩

/-! ## Claim C3 — single-flight refresh -/

/-- C3: when `k ≥ 1` callers of `fetchProxyList` arrive concurrently (each
runs its synchronous prologue before the proxy-source request resolves),
then under every subsequent schedule of polling steps and the delivery,
exactly one outbound fetch to the proxy source is ever issued, and any two
callers that have resolved observed the same resulting proxy list. -/
theorem single_flight_refresh (k : Nat) (p : PoolState)
    (pre post : List RefreshEvent) (hk : 0 < k)
    (hpre : ∀ e ∈ pre, ∃ i : Nat, e = RefreshEvent.step i)
    (hcover : ∀ i : Nat, i < k → RefreshEvent.step i ∈ pre) :
    (refreshRun (initRefresh k p) (pre ++ post)).fetchCount = 1
    ∧ ∀ a b : List String,
        CallerPhase.done a ∈ (refreshRun (initRefresh k p) (pre ++ post)).callers
        → CallerPhase.done b ∈ (refreshRun (initRefresh k p) (pre ++ post)).callers
        → a = b := by
  have hinit : PreInv p k (initRefresh k p) := by
    refine ⟨rfl, by simp [initRefresh], Or.inl ⟨rfl, rfl, rfl, ?_⟩⟩
    intro j q hq
    simp only [initRefresh] at hq
    rcases List.getElem?_eq_some.mp hq with ⟨hlt, hget⟩
    rw [List.getElem_replicate] at hget
    exact hget.symm
  obtain ⟨hpreinv, hstepped⟩ := preInv_run p k pre (initRefresh k p) hpre hinit
  have hpost0 : PostInv (refreshRun (initRefresh k p) pre) :=
    postInv_of_stepped p k _ hk hpreinv
      (fun i hi => hstepped i (Or.inl (hcover i hi)))
  have hsplit : refreshRun (initRefresh k p) (pre ++ post)
      = refreshRun (refreshRun (initRefresh k p) pre) post := by
    simp [refreshRun, List.foldl_append]
  rw [hsplit]
  obtain ⟨hfc, hns, hcase⟩ := postInv_run post _ hpost0
  refine ⟨hfc, ?_⟩
  intro a b ha hb
  rcases hcase with ⟨_, j, _, hjc, hoth⟩ | ⟨_, _, hall⟩
  · obtain ⟨ia, hia⟩ := mem_lookup _ _ ha
    by_cases hij : ia = j
    · subst hij
      rw [hjc] at hia
      exact absurd (Option.some.inj hia) (by simp)
    · exact absurd (hoth ia _ hij hia) (by simp)
  · obtain ⟨ia, hia⟩ := mem_lookup _ _ ha
    obtain ⟨ib, hib⟩ := mem_lookup _ _ hb
    have hA := (hall ia _ hia).resolve_left (by simp)
    have hB := (hall ib _ hib).resolve_left (by simp)
    exact (CallerPhase.done.inj hA).trans (CallerPhase.done.inj hB).symm

/-- C3 witness: two concurrent callers, one delivery, one last poll; the
single outbound fetch and agreement of observations follow by applying the
single-flight theorem. -/
theorem single_flight_refresh_witness :
    (refreshRun (initRefresh 2 initialPoolState)
        ([RefreshEvent.step 0, RefreshEvent.step 1]
          ++ [RefreshEvent.deliver (some "1.2.3.4:80") 5,
              RefreshEvent.step 1])).fetchCount = 1
    ∧ ∀ a b : List String,
        CallerPhase.done a ∈ (refreshRun (initRefresh 2 initialPoolState)
          ([RefreshEvent.step 0, RefreshEvent.step 1]
            ++ [RefreshEvent.deliver (some "1.2.3.4:80") 5,
                RefreshEvent.step 1])).callers
        → CallerPhase.done b ∈ (refreshRun (initRefresh 2 initialPoolState)
          ([RefreshEvent.step 0, RefreshEvent.step 1]
            ++ [RefreshEvent.deliver (some "1.2.3.4:80") 5,
                RefreshEvent.step 1])).callers
        → a = b :=
  single_flight_refresh 2 initialPoolState
    [RefreshEvent.step 0, RefreshEvent.step 1]
    [RefreshEvent.deliver (some "1.2.3.4:80") 5, RefreshEvent.step 1]
    (by decide)
    (by
      intro e he
      rcases List.mem_cons.mp he with rfl | he'
      · exact ⟨0, rfl⟩
      · rcases List.mem_cons.mp he' with rfl | he''
        · exact ⟨1, rfl⟩
        · exact absurd he'' (List.not_mem_nil _))
    (by
      intro i hi
      interval_cases i <;> simp)

/-! ## Render queue invariants (claims C4 and C5) -/

/-- Invariant of the render queue machine: the module counter agrees with
the number of executing tasks, at most two tasks execute, a slot is never
idle while a task is queued, tasks start in exactly their enqueue order
(`started ++ puppeteerQueue` is the full id sequence in order), and every
started task is either executing or completed. -/
def QueueInv (st : QueueState) : Prop :=
  st.activePuppeteerRequests = (st.running.length : Int)
  ∧ st.running.length ≤ 2
  ∧ (st.puppeteerQueue ≠ [] → st.running.length = 2)
  ∧ st.started ++ st.puppeteerQueue = List.range st.nextId
  ∧ ∀ id : Nat, id ∈ st.started ↔ (id ∈ st.running ∨ id ∈ st.completed)

theorem queueInv_init : QueueInv initQueue := by
  refine ⟨rfl, by decide, by intro h; exact absurd rfl h, rfl, ?_⟩
  intro id
  simp [initQueue]

theorem processQueue_spec (st : QueueState)
    (h1 : st.activePuppeteerRequests = (st.running.length : Int))
    (h2 : st.running.length ≤ 2)
    (hpre : 2 ≤ st.puppeteerQueue.length → 1 ≤ st.running.length)
    (h4 : st.started ++ st.puppeteerQueue = List.range st.nextId)
    (h5 : ∀ id : Nat, id ∈ st.started ↔ (id ∈ st.running ∨ id ∈ st.completed)) :
    QueueInv (processQueue st) := by
  unfold processQueue
  by_cases hfull : maxPuppeteerRequests ≤ st.activePuppeteerRequests
  · have hlen : st.running.length = 2 := by
      rw [h1] at hfull
      simp only [maxPuppeteerRequests] at hfull
      omega
    simp only [hfull, if_true]
    exact ⟨h1, h2, fun _ => hlen, h4, h5⟩
  · simp only [hfull, if_false]
    have hsmall : st.running.length ≤ 1 := by
      rw [h1] at hfull
      simp only [maxPuppeteerRequests] at hfull
      omega
    cases hq : st.puppeteerQueue with
    | nil =>
      simp only [hq]
      exact ⟨h1, h2, fun hcon => absurd hq hcon, h4, h5⟩
    | cons t rest =>
      rw [hq] at h4 hpre
      simp only [hq]
      refine ⟨?_, ?_, ?_, ?_, ?_⟩
      · simp only [List.length_append, List.length_singleton, h1]
        push_cast
        ring
      · simp only [List.length_append, List.length_singleton]
        omega
      · intro hrest
        have hrl : 1 ≤ st.running.length := by
          apply hpre
          simp only [List.length_cons]
          have : rest.length ≠ 0 := fun h => hrest (List.eq_nil_of_length_eq_zero h)
          omega
        simp only [List.length_append, List.length_singleton]
        omega
      · simp only [List.append_assoc, List.singleton_append]
        exact h4
      · intro id
        simp only [List.mem_append, List.mem_singleton]
        rw [h5 id]
        tauto

theorem queueInv_step (st : QueueState) (e : QueueEvent) (h : QueueInv st) :
    QueueInv (queueStep st e) := by
  obtain ⟨h1, h2, h3, h4, h5⟩ := h
  cases e with
  | enqueue =>
    apply processQueue_spec
    · exact h1
    · exact h2
    · intro hlen
      have hq : st.puppeteerQueue ≠ [] := by
        simp only [List.length_append, List.length_singleton] at hlen
        intro hnil
        rw [hnil] at hlen
        simp at hlen
      rw [h3 hq]
      omega
    · simp only [← List.append_assoc, h4, List.range_succ]
    · exact h5
  | complete id =>
    by_cases hmem : id ∈ st.running
    · simp only [queueStep, hmem, if_true]
      have hpos : 1 ≤ st.running.length :=
        List.length_pos.mpr (List.ne_nil_of_mem hmem)
      have herase : (st.running.erase id).length = st.running.length - 1 :=
        List.length_erase_of_mem hmem
      apply processQueue_spec
      · dsimp only
        rw [h1, herase]
        omega
      · simp only [herase]; omega
      · intro hlen
        have hq : st.puppeteerQueue ≠ [] := by
          intro hnil; rw [hnil] at hlen; simp at hlen
        have := h3 hq
        simp only [herase]
        omega
      · exact h4
      · intro x
        rw [h5 x]
        simp only [List.mem_append, List.mem_singleton]
        constructor
        · rintro (hr | hc)
          · by_cases hx : x = id
            · exact Or.inr (Or.inr hx)
            · exact Or.inl ((List.mem_erase_of_ne hx).mpr hr)
          · exact Or.inr (Or.inl hc)
        · rintro (hr | hc | hx)
          · exact Or.inl (List.mem_of_mem_erase hr)
          · exact Or.inr hc
          · exact Or.inl (hx ▸ hmem)
    · simp only [queueStep, hmem, if_false]
      exact ⟨h1, h2, h3, h4, h5⟩

theorem queueInv_run (evs : List QueueEvent) (st : QueueState)
    (h : QueueInv st) : QueueInv (queueRun st evs) := by
  induction evs generalizing st with
  | nil => exact h
  | cons e rest ih => exact ih (queueStep st e) (queueInv_step st e h)

/-! ## Claim C4 — concurrency ceiling -/

/-- C4: under every sequence of enqueue and completion events, the count of
simultaneously executing render tasks stays within `[0, 2]`; and whenever
the system has drained (no task executing), every task ever enqueued has
both started and completed — so each submitted task eventually starts and
completes provided executing tasks keep finishing. -/
theorem render_concurrency_ceiling (evs : List QueueEvent) :
    0 ≤ (queueRun initQueue evs).activePuppeteerRequests
    ∧ (queueRun initQueue evs).activePuppeteerRequests ≤ maxPuppeteerRequests
    ∧ ((queueRun initQueue evs).running = [] →
        ∀ id : Nat, id < (queueRun initQueue evs).nextId →
          id ∈ (queueRun initQueue evs).started
          ∧ id ∈ (queueRun initQueue evs).completed) := by
  obtain ⟨h1, h2, h3, h4, h5⟩ := queueInv_run evs initQueue queueInv_init
  refine ⟨by rw [h1]; positivity, ?_, ?_⟩
  · rw [h1]
    simp only [maxPuppeteerRequests]
    exact_mod_cast h2
  · intro hdrain id hid
    have hq : (queueRun initQueue evs).puppeteerQueue = [] := by
      by_contra hq
      have := h3 hq
      rw [hdrain] at this
      simp at this
    rw [hq, List.append_nil] at h4
    have hst : id ∈ (queueRun initQueue evs).started := by
      rw [h4]
      exact List.mem_range.mpr hid
    refine ⟨hst, ?_⟩
    rcases (h5 id).mp hst with hr | hc
    · rw [hdrain] at hr
      exact absurd hr (List.not_mem_nil id)
    · exact hc

/-- C4 witness: three tasks enqueued at once against ceiling 2; after all
three completions the system is drained and task 2 both started and
completed. -/
theorem render_concurrency_ceiling_witness :
    (queueRun initQueue
        [QueueEvent.enqueue, QueueEvent.enqueue, QueueEvent.enqueue,
         QueueEvent.complete 0, QueueEvent.complete 1,
         QueueEvent.complete 2]).running = []
    ∧ 2 ∈ (queueRun initQueue
        [QueueEvent.enqueue, QueueEvent.enqueue, QueueEvent.enqueue,
         QueueEvent.complete 0, QueueEvent.complete 1,
         QueueEvent.complete 2]).completed :=
  ⟨by decide,
    ((render_concurrency_ceiling
        [QueueEvent.enqueue, QueueEvent.enqueue, QueueEvent.enqueue,
         QueueEvent.complete 0, QueueEvent.complete 1,
         QueueEvent.complete 2]).2.2 (by decide) 2 (by decide)).2⟩

/-! ## Claim C5 — FIFO admission -/

/-- C5: render admission is strictly FIFO: `queuePuppeteerRequest` appends
to the tail, `processPuppeteerQueue` shifts from the head, and under every
sequence of enqueue and completion events the tasks that have been started
are exactly the first `started.length` task ids in enqueue order. -/
theorem render_fifo_admission (evs : List QueueEvent) :
    (queueRun initQueue evs).started
      = List.range (queueRun initQueue evs).started.length := by
  obtain ⟨_, _, _, h4, _⟩ := queueInv_run evs initQueue queueInv_init
  have hlen : (queueRun initQueue evs).started.length
      ≤ (queueRun initQueue evs).nextId := by
    have := congrArg List.length h4
    simp only [List.length_append, List.length_range] at this
    omega
  calc (queueRun initQueue evs).started
      = ((queueRun initQueue evs).started
          ++ (queueRun initQueue evs).puppeteerQueue).take
            (queueRun initQueue evs).started.length := by
        rw [List.take_left]
    _ = (List.range (queueRun initQueue evs).nextId).take
          (queueRun initQueue evs).started.length := by rw [h4]
    _ = List.range (queueRun initQueue evs).started.length := by
        rw [List.take_range, Nat.min_eq_left hlen]

/-! ## Claim C8 — index range invariant -/

/-- C8 counterexample: from the module's initial state (empty pool, index
0), a single rotation computes `(0 + 1) % 0`, which in JavaScript is `NaN`:
the index is no longer a number in `[0, len]` at all. -/
theorem index_range_counterexample :
    ¬ ∃ k : Nat,
      (applyPoolOps initialPoolState [PoolOp.rotate]).currentProxyIndex
        = some k := by
  intro ⟨k, hk⟩
  simp [applyPoolOps, applyPoolOp, rotateIndex, jsAdvance,
    initialPoolState] at hk

/-- C8 amended: after every sequence of pool operations from the initial
state, the index is either the `NaN` produced by rotating an empty pool
(and propagated by later rotations until a successful refresh), or a number
within `[0, len]`. -/
theorem index_range_invariant (ops : List PoolOp) :
    (applyPoolOps initialPoolState ops).currentProxyIndex = none
    ∨ ∃ k : Nat,
        (applyPoolOps initialPoolState ops).currentProxyIndex = some k
        ∧ k ≤ (applyPoolOps initialPoolState ops).proxyList.length := by
  suffices h : ∀ (s : PoolState),
      (s.currentProxyIndex = none
        ∨ ∃ k : Nat, s.currentProxyIndex = some k ∧ k ≤ s.proxyList.length) →
      (applyPoolOps s ops).currentProxyIndex = none
      ∨ ∃ k : Nat, (applyPoolOps s ops).currentProxyIndex = some k
          ∧ k ≤ (applyPoolOps s ops).proxyList.length by
    exact h initialPoolState (Or.inr ⟨0, rfl, Nat.le_refl 0⟩)
  induction ops with
  | nil => intro s hs; exact hs
  | cons op rest ih =>
    intro s hs
    have hstep : (applyPoolOp s op).currentProxyIndex = none
        ∨ ∃ k : Nat, (applyPoolOp s op).currentProxyIndex = some k
            ∧ k ≤ (applyPoolOp s op).proxyList.length := by
      cases op with
      | refreshOk data now => exact Or.inr ⟨0, rfl, Nat.zero_le _⟩
      | refreshFail => exact hs
      | rotate =>
        rcases hs with hnone | ⟨k, hk, _⟩
        · exact Or.inl (by simp [applyPoolOp, rotateIndex, jsAdvance, hnone])
        · by_cases hlen : s.proxyList.length = 0
          · exact Or.inl (by simp [applyPoolOp, rotateIndex, jsAdvance, hk, hlen])
          · refine Or.inr ⟨(k + 1) % s.proxyList.length, ?_, ?_⟩
            · simp [applyPoolOp, rotateIndex, jsAdvance, hk, hlen]
            · exact Nat.le_of_lt
                (Nat.mod_lt _ (Nat.pos_of_ne_zero hlen))
    exact ih (applyPoolOp s op) hstep

/-! ## Claim C9 — successful refresh -/

/-- C9: when the in-flight proxy-source request resolves successfully, the
pool contents are replaced by the newline-split body with each line trimmed
and normalized to its first two colon-delimited fields rejoined with `:`,
lines normalizing to the empty string discarded; the index is reset to 0 and
the refresh timestamp is set to the current time. -/
theorem refresh_success_state (sys : RefreshSystem) (i : Nat) (data : String)
    (now : Nat) (h : sys.inFlight = some i) :
    (deliverStep sys (some data) now).pool.proxyList
      = (((splitChars '\n' data.toList).map String.mk).map
          (fun l => String.mk (List.intercalate [':']
            ((splitChars ':' (trimChars l.toList)).take 2)))).filter
          (fun p => p ≠ "")
    ∧ (deliverStep sys (some data) now).pool.currentProxyIndex = some 0
    ∧ (deliverStep sys (some data) now).pool.lastProxyFetchTime = now := by
  refine ⟨?_, ?_, ?_⟩ <;> simp only [deliverStep, h] <;> rfl

/-- C9 witness: a concrete delivery with one extra colon field, one plain
entry and a trailing newline. -/
theorem refresh_success_state_witness :
    (deliverStep (initRefresh 1 initialPoolState) (some "1.2.3.4:80:DE\n5.6.7.8:90\n") 7).pool.proxyList
      = (deliverStep { initRefresh 1 initialPoolState with inFlight := some 0 }
          (some "1.2.3.4:80:DE\n5.6.7.8:90\n") 7).pool.proxyList
    ∨ ((deliverStep { initRefresh 1 initialPoolState with inFlight := some 0 }
          (some "1.2.3.4:80:DE\n5.6.7.8:90\n") 7).pool.proxyList
        = ["1.2.3.4:80", "5.6.7.8:90"]
      ∧ (deliverStep { initRefresh 1 initialPoolState with inFlight := some 0 }
          (some "1.2.3.4:80:DE\n5.6.7.8:90\n") 7).pool.currentProxyIndex = some 0
      ∧ (deliverStep { initRefresh 1 initialPoolState with inFlight := some 0 }
          (some "1.2.3.4:80:DE\n5.6.7.8:90\n") 7).pool.lastProxyFetchTime = 7) := by
  have h := refresh_success_state
    { initRefresh 1 initialPoolState with inFlight := some 0 } 0
    "1.2.3.4:80:DE\n5.6.7.8:90\n" 7 rfl
  exact Or.inr ⟨by rw [h.1]; decide, h.2.1, h.2.2⟩

/-! ## Claim C10 — failed refresh -/

/-- C10: when the in-flight proxy-source request rejects, the `catch` block
leaves the previous proxy list, index and refresh timestamp untouched, the
flag is cleared, and the caller's `fetchProxyList` promise resolves normally
(no error is raised), so the guard of `refreshProxyListIfNeeded` is
unchanged and a later call will retry. -/
theorem refresh_failure_state (sys : RefreshSystem) (i : Nat) (now : Nat)
    (h : sys.inFlight = some i) (hi : i < sys.callers.length) :
    (deliverStep sys none now).pool = sys.pool
    ∧ (deliverStep sys none now).callers[i]?
        = some (CallerPhase.done sys.pool.proxyList)
    ∧ (deliverStep sys none now).isFetchingProxies = false
    ∧ ∀ t, shouldRefresh t (deliverStep sys none now).pool
        = shouldRefresh t sys.pool := by
  refine ⟨?_, ?_, ?_, ?_⟩
  · simp [deliverStep, h, applyPoolOp]
  · simp [deliverStep, h, applyPoolOp,
      List.getElem?_set_self', List.getElem?_eq_getElem, hi]
  · simp [deliverStep, h]
  · intro t; simp [deliverStep, h, applyPoolOp]

/-- C10 witness: a failed refresh delivered to a single waiting-for-network
caller over the scenario pool. -/
theorem refresh_failure_state_witness :
    (deliverStep { initRefresh 1 scenarioPool with inFlight := some 0 } none 9).pool
        = scenarioPool
    ∧ (deliverStep { initRefresh 1 scenarioPool with inFlight := some 0 } none 9).callers[0]?
        = some (CallerPhase.done scenarioPool.proxyList) := by
  have h := refresh_failure_state
    { initRefresh 1 scenarioPool with inFlight := some 0 } 0 9 rfl (by decide)
  exact ⟨h.1, h.2.1⟩

end RatingAddon
